import Mathlib

/-!
# Foster engine — verification of the collision / physics / math core

A shallow embedding, in Lean 4, of the parts of the `foster` 2D game engine
that the specification's claims are about:

* JS-number helpers (`Math.round`, the `%` remainder, `||` defaulting,
  `Calc.sign`) — `src/build/foster.module.js` (`Calc`) and ECMAScript
  semantics of the operators used by the sources.  JS numbers are modelled
  as exact rationals (`ℚ`); floating-point rounding is outside the model.
* `Rectangle` (`cropRect`, the constructor) — `src/build/foster.module.js`.
* `Matrix` (3×3, `invert`, `multiply`) — `src/build/foster.module.js`.
* `Color` (clamping setters, `set`, `mult`) — `src/build/foster.module.js`.
* `ObjectList` (`add`, `remove`, `sort`, `clean`) — `src/src/util/objectList.ts`.
* The `Collider` overlap-test registry, `Collider.overlap`,
  `Collider.collide` / `collideAll` / `check` / `collides`, the
  `Hitbox`/`Hitbox` test from `DefaultOverlapTests` —
  `src/build/foster.module.js`.
* The `Physics` mover (`update`, `moveX`, `moveXAbsolute`, and the `Y`
  mirrors) — `src/src/components/physics.ts`.

Mutation of JS objects is modelled by explicit state passing: a method that
mutates its receiver is a function returning the receiver's new state.
Callbacks (the `Physics` collision callbacks) are modelled as emitted
events; the model treats them as observers that do not mutate the mover.
-/

/-! ## JS number helpers -/

/-- ECMAScript `Math.round` on an exact rational: round half towards `+∞`
(`Math.round(0.5) = 1`, `Math.round(-0.5) = -0`). -/
def jsRound (q : ℚ) : ℤ := ⌊q + 1/2⌋

/-- Truncation towards zero, the integer part used by the ECMAScript `%`
operator. -/
def jsTrunc (q : ℚ) : ℤ := if 0 ≤ q then ⌊q⌋ else -⌊-q⌋

/-- ECMAScript `q % 1`: the sign-preserving fractional part
(`q - trunc(q)`). -/
def jsMod1 (q : ℚ) : ℚ := q - jsTrunc q

/-- ECMAScript `v || d` on a possibly-missing number argument: an absent or
zero (falsy) value yields the default `d`. -/
def jsOr (v : Option ℚ) (d : ℚ) : ℚ :=
  match v with
  | none => d
  | some x => if x = 0 then d else x

/-- `Calc.sign` (foster.module.js): `n < 0 ? -1 : (n > 0 ? 1 : 0)`. -/
def jsSign (q : ℚ) : ℤ := if q < 0 then -1 else if 0 < q then 1 else 0

/-! ## Rectangle -/

/-- `Rectangle`: `x, y, width, height` (foster.module.js). -/
structure Rectangle where
  x : ℚ
  y : ℚ
  width : ℚ
  height : ℚ
deriving DecidableEq, Repr

namespace Rectangle

/-- `get left() { return this.x; }` -/
def left (r : Rectangle) : ℚ := r.x

/-- `get right() { return this.x + this.width; }` -/
def right (r : Rectangle) : ℚ := r.x + r.width

/-- `get top() { return this.y; }` -/
def top (r : Rectangle) : ℚ := r.y

/-- `get bottom() { return this.y + this.height; }` -/
def bottom (r : Rectangle) : ℚ := r.y + r.height

/-- The `Rectangle` constructor:
`this.x = x || 0; this.y = y || 0; this.width = w || 1; this.height = h || 1`.
Arguments are optional in JS, hence `Option ℚ`. -/
def make (x y w h : Option ℚ) : Rectangle :=
  { x := jsOr x 0, y := jsOr y 0, width := jsOr w 1, height := jsOr h 1 }

/-- First block of `cropRect`:
`if (r.x < this.x) { r.width += (r.x - this.x); r.x = this.x; }`. -/
def cropStep1 (t r : Rectangle) : Rectangle :=
  if r.x < t.x then { r with width := r.width + (r.x - t.x), x := t.x } else r

/-- Second block of `cropRect` (note the source compares `r.y` with
`this.x`): `if (r.y < this.x) { r.height += (r.y - this.y); r.y = this.y; }`. -/
def cropStep2 (t r : Rectangle) : Rectangle :=
  if r.y < t.x then { r with height := r.height + (r.y - t.y), y := t.y } else r

/-- Third block: `if (r.x > this.right) { r.x = this.right; r.width = 0; }`. -/
def cropStep3 (t r : Rectangle) : Rectangle :=
  if r.x > t.right then { r with x := t.right, width := 0 } else r

/-- Fourth block: `if (r.y > this.bottom) { r.y = this.bottom; r.height = 0; }`. -/
def cropStep4 (t r : Rectangle) : Rectangle :=
  if r.y > t.bottom then { r with y := t.bottom, height := 0 } else r

/-- Fifth block: `if (r.right > this.right) r.width = this.right - r.x;`. -/
def cropStep5 (t r : Rectangle) : Rectangle :=
  if r.right > t.right then { r with width := t.right - r.x } else r

/-- Sixth block: `if (r.bottom > this.bottom) r.height = this.bottom - r.y;`. -/
def cropStep6 (t r : Rectangle) : Rectangle :=
  if r.bottom > t.bottom then { r with height := t.bottom - r.y } else r

/-- `Rectangle.cropRect(r)`: mutates the argument `r` through the six
conditional blocks, in source order, and returns it.  `t` plays the role
of `this`. -/
def cropRect (t r : Rectangle) : Rectangle :=
  cropStep6 t (cropStep5 t (cropStep4 t (cropStep3 t (cropStep2 t (cropStep1 t r)))))

end Rectangle

/-! ## Matrix (3×3) -/

/-- `Matrix` (foster.module.js): a 9-element array `mat`, here nine named
fields `m0 … m8` (named `FMatrix` here since Mathlib claims `Matrix`) with `mi` standing for `this.mat[i]`. -/
structure FMatrix where
  m0 : ℚ
  m1 : ℚ
  m2 : ℚ
  m3 : ℚ
  m4 : ℚ
  m5 : ℚ
  m6 : ℚ
  m7 : ℚ
  m8 : ℚ
deriving DecidableEq, Repr

namespace FMatrix

/-- `Matrix.identity()`: sets `mat = [1,0,0, 0,1,0, 0,0,1]`. -/
def identityMat : FMatrix := ⟨1, 0, 0, 0, 1, 0, 0, 0, 1⟩

/-- The zero matrix (all nine elements 0). -/
def zeroMat : FMatrix := ⟨0, 0, 0, 0, 0, 0, 0, 0, 0⟩

/-- The determinant computed inside `Matrix.invert()`:
`det = a00 * b01 + a01 * b11 + a02 * b21` with
`b01 = a22*a11 - a12*a21`, `b11 = -a22*a10 + a12*a20`,
`b21 = a21*a10 - a11*a20`. -/
def det (m : FMatrix) : ℚ :=
  m.m0 * (m.m8 * m.m4 - m.m5 * m.m7)
    + m.m1 * (-m.m8 * m.m3 + m.m5 * m.m6)
    + m.m2 * (m.m7 * m.m3 - m.m4 * m.m6)

/-- `Matrix.invert()`: if `!det` (here: `det = 0`) return `this` unchanged,
otherwise overwrite the nine elements with the inverse. -/
def invert (m : FMatrix) : FMatrix :=
  let b01 := m.m8 * m.m4 - m.m5 * m.m7
  let b11 := -m.m8 * m.m3 + m.m5 * m.m6
  let b21 := m.m7 * m.m3 - m.m4 * m.m6
  let d := m.m0 * b01 + m.m1 * b11 + m.m2 * b21
  if d = 0 then m
  else
    let di := 1 / d
    { m0 := b01 * di
      m1 := (-m.m8 * m.m1 + m.m2 * m.m7) * di
      m2 := (m.m5 * m.m1 - m.m2 * m.m4) * di
      m3 := b11 * di
      m4 := (m.m8 * m.m0 - m.m2 * m.m6) * di
      m5 := (-m.m5 * m.m0 + m.m2 * m.m3) * di
      m6 := b21 * di
      m7 := (-m.m7 * m.m0 + m.m1 * m.m6) * di
      m8 := (m.m4 * m.m0 - m.m1 * m.m3) * di }

/-- `Matrix.multiply(o)`: overwrites `this` with the product
(`this.mat[0] = b00*a00 + b01*a10 + b02*a20`, … where `a` is `this` and
`b` is `o`). -/
def multiply (m o : FMatrix) : FMatrix :=
  { m0 := o.m0 * m.m0 + o.m1 * m.m3 + o.m2 * m.m6
    m1 := o.m0 * m.m1 + o.m1 * m.m4 + o.m2 * m.m7
    m2 := o.m0 * m.m2 + o.m1 * m.m5 + o.m2 * m.m8
    m3 := o.m3 * m.m0 + o.m4 * m.m3 + o.m5 * m.m6
    m4 := o.m3 * m.m1 + o.m4 * m.m4 + o.m5 * m.m7
    m5 := o.m3 * m.m2 + o.m4 * m.m5 + o.m5 * m.m8
    m6 := o.m6 * m.m0 + o.m7 * m.m3 + o.m8 * m.m6
    m7 := o.m6 * m.m1 + o.m7 * m.m4 + o.m8 * m.m7
    m8 := o.m6 * m.m2 + o.m7 * m.m5 + o.m8 * m.m8 }

end FMatrix

/-! ## Color -/

/-- `Color` (foster.module.js): the four stored components of the
`this.color` RGBA array. -/
structure Color where
  r : ℚ
  g : ℚ
  b : ℚ
  a : ℚ
deriving DecidableEq, Repr

namespace Color

/-- The clamping in every component setter:
`this.color[i] = Math.min(1, Math.max(0, v))`. -/
def clamp01 (v : ℚ) : ℚ := min 1 (max 0 v)

/-- `Color.set(r, g, b, a)`: assigns every component through its clamping
setter and returns `this` (the mutated receiver's state). -/
def set (_c : Color) (r g b a : ℚ) : Color :=
  { r := clamp01 r, g := clamp01 g, b := clamp01 b, a := clamp01 a }

/-- `Color.mult(alpha)`: `return this.set(this.r, this.g, this.b,
this.a * alpha)` — the returned color *is* the receiver, mutated in place;
the model returns the receiver's (= the result's) new state. -/
def mult (c : Color) (alpha : ℚ) : Color :=
  set c c.r c.g c.b (c.a * alpha)

end Color

/-! ## ObjectList (src/util/objectList.ts) -/

/-- `ObjectList<T>`: an array of nullable slots (`objects`), the
`unsorted` / `dirty` flags and the live-entry counter `_count`.
The uninitialized JS booleans are `undefined` (falsy), modelled `false`. -/
structure ObjectList (α : Type) where
  objects : Array (Option α)
  unsorted : Bool
  dirty : Bool
  count : ℤ
deriving Repr

namespace ObjectList

/-- A freshly constructed `ObjectList`. -/
def empty (α : Type) : ObjectList α := ⟨#[], false, false, 0⟩

/-- `add(object)`: push, bump `_count`, set `unsorted`. -/
def add (l : ObjectList α) (x : α) : ObjectList α :=
  { l with objects := l.objects.push (some x), count := l.count + 1, unsorted := true }

/-- `remove(object)`: `indexOf` (first slot holding the object), null the
slot, decrement `_count`, set `dirty`, return `true`; absent: return
`false` with the list untouched. -/
def remove [DecidableEq α] (l : ObjectList α) (x : α) : ObjectList α × Bool :=
  match l.objects.toList.findIdx? (fun slot => slot = some x) with
  | some i =>
      ({ l with objects := l.objects.setD i none, count := l.count - 1, dirty := true }, true)
  | none => (l, false)

/-- `clean()`: when `dirty`, drop every null slot (the backwards `splice`
loop keeps the surviving order); when `count ≤ 0`, reset to a fresh array.
The source never clears the `dirty` flag here. -/
def clean (l : ObjectList α) : ObjectList α :=
  if l.dirty then
    { l with objects := if l.count ≤ 0 then #[] else l.objects.filter (fun o => !o.isNone) }
  else l

/-- The inner `while` loop of `sort`: with `p` the loop variable `j`,
compare slots `j-1` and `j`, swap while both are non-null and out of
order, decrementing `j`. -/
def sortInner (cmp : α → α → ℤ) : Array (Option α) → ℕ → Array (Option α)
  | arr, 0 => arr
  | arr, q + 1 =>
      match arr[q]?, arr[q + 1]? with
      | some (some a), some (some b) =>
          if cmp a b > 0 then
            sortInner cmp ((arr.setD q (some b)).setD (q + 1) (some a)) q
          else arr
      | _, _ => arr

/-- The outer `for` loop of `sort`: for `i` from `0` to `length - 2`, run
the inner loop starting at `j = i + 1`. -/
def sortRun (cmp : α → α → ℤ) (arr : Array (Option α)) : Array (Option α) :=
  (List.range (arr.size - 1)).foldl (fun acc i => sortInner cmp acc (i + 1)) arr

/-- `sort(compare)`: insertion-sort the slots only when `unsorted`, then
clear the flag. -/
def sort (cmp : α → α → ℤ) (l : ObjectList α) : ObjectList α :=
  if l.unsorted then { l with objects := sortRun cmp l.objects, unsorted := false } else l

end ObjectList

/-! ## Collider framework (foster.module.js) -/

/-- A collider as the overlap machinery sees it: the dispatch `type` tag,
the owning entity (`null` allowed) with its position, the component-local
`position`, and the `Hitbox` shape fields (`left/top/width/height`).
`entX`/`entY` hold `entity ? entity.x/y : 0`. -/
structure Coll where
  type : String
  entity : Option ℕ
  entX : ℚ
  entY : ℚ
  posX : ℚ
  posY : ℚ
  left : ℚ
  top : ℚ
  width : ℚ
  height : ℚ
deriving DecidableEq, Repr

namespace Coll

/-- `Component.scenePosition.x` = `(entity ? entity.x : 0) + position.x`. -/
def sceneX (c : Coll) : ℚ := c.entX + c.posX

/-- `Component.scenePosition.y`. -/
def sceneY (c : Coll) : ℚ := c.entY + c.posY

/-- `Hitbox.sceneLeft` = `scenePosition.x + left`. -/
def sceneLeft (c : Coll) : ℚ := c.sceneX + c.left

/-- `Hitbox.sceneRight` = `scenePosition.x + left + width`. -/
def sceneRight (c : Coll) : ℚ := c.sceneX + c.left + c.width

/-- `Hitbox.sceneTop` = `scenePosition.y + top`. -/
def sceneTop (c : Coll) : ℚ := c.sceneY + c.top

/-- `Hitbox.sceneBottom` = `scenePosition.y + top + height`. -/
def sceneBottom (c : Coll) : ℚ := c.sceneY + c.top + c.height

/-- `this.x += dx; this.y += dy` — the temporary translation applied by the
collision queries writes the component-local position. -/
def translate (c : Coll) (dx dy : ℚ) : Coll :=
  { c with posX := c.posX + dx, posY := c.posY + dy }

end Coll

/-- A lookup in a JS dictionary object: `d[k]`, `undefined` when absent. -/
def dictGet {β : Type} (d : List (String × β)) (k : String) : Option β :=
  (d.find? (fun p => p.1 = k)).map (fun p => p.2)

/-- An assignment `d[k] = v` in a JS dictionary object. -/
def dictSet {β : Type} : List (String × β) → String → β → List (String × β)
  | [], k, v => [(k, v)]
  | (k', v') :: rest, k, v =>
      if k' = k then (k, v) :: rest else (k', v') :: dictSet rest k v

/-- The JS exceptions the overlap dispatch can raise: reading a property of
`undefined` (`Collider.overlaptest[a.type]` missing) and calling
`undefined` (`...[b.type]` missing).  The source constructs no message. -/
inductive JsErr where
  | readPropOfUndefined : JsErr
  | callOfUndefined : JsErr
deriving DecidableEq, Repr

/-- `Collider.overlaptest`: a dictionary from type tag to a dictionary from
type tag to a test function. -/
def OverlapReg : Type := List (String × List (String × (Coll → Coll → Bool)))

/-- `Collider.registerOverlapTest(fromType, toType, test)`: ensure both
outer entries exist, then install `(a,b) => test(a,b)` under
`[fromType][toType]` and the argument-swapped `(a,b) => test(b,a)` under
`[toType][fromType]`. -/
def registerOverlapTest (fromT toT : String) (test : Coll → Coll → Bool)
    (reg : OverlapReg) : OverlapReg :=
  let reg1 := if (dictGet reg fromT).isNone then dictSet reg fromT [] else reg
  let reg2 := if (dictGet reg1 toT).isNone then dictSet reg1 toT [] else reg1
  let inner1 := (dictGet reg2 fromT).getD []
  let reg3 := dictSet reg2 fromT (dictSet inner1 toT (fun a b => test a b))
  let inner2 := (dictGet reg3 toT).getD []
  dictSet reg3 toT (dictSet inner2 fromT (fun a b => test b a))

/-- The inner dispatch step of `Collider.overlap`: index the row found for
`a.type` by `b.type` and call it; calling a missing (`undefined`) entry
raises. -/
def overlapInner (inner : List (String × (Coll → Coll → Bool))) (a b : Coll) :
    Except JsErr Bool :=
  match dictGet inner b.type with
  | none => .error .callOfUndefined
  | some f => .ok (f a b)

/-- `Collider.overlap(a, b)` = `Collider.overlaptest[a.type][b.type](a, b)`:
a missing outer or inner entry raises the corresponding `TypeError`. -/
def overlap (reg : OverlapReg) (a b : Coll) : Except JsErr Bool :=
  match dictGet reg a.type with
  | none => .error .readPropOfUndefined
  | some inner => overlapInner inner a b

/-- The `Hitbox`/`Hitbox` test registered by `DefaultOverlapTests`:
`a.sceneRight > b.sceneLeft && a.sceneBottom > b.sceneTop &&
a.sceneLeft < b.sceneRight && a.sceneTop < b.sceneBottom`. -/
def hitboxTest (a b : Coll) : Bool :=
  decide (a.sceneRight > b.sceneLeft ∧ a.sceneBottom > b.sceneTop
    ∧ a.sceneLeft < b.sceneRight ∧ a.sceneTop < b.sceneBottom)

/-- The registry state after the `Hitbox`/`Hitbox` registration of
`DefaultOverlapTests` (the `Hitgrid` registrations involve the grid map
and are not needed by the claims). -/
def hitboxReg : OverlapReg := registerOverlapTest "Hitbox" "Hitbox" hitboxTest []

/-- `Scene.allCollidersInTag(tag)`: the tag's list, `[]` when untracked. -/
def allCollidersInTag (scene : List (String × List Coll)) (tag : String) : List Coll :=
  (dictGet scene tag).getD []

/-- The `for (const other of against)` search inside `Collider.collide`:
the first collider the (already translated) receiver overlaps.  An
exception from `Collider.overlap` propagates. -/
def firstOverlap (reg : OverlapReg) (moved : Coll) : List Coll → Except JsErr (Option Coll)
  | [] => .ok none
  | o :: rest =>
      match overlap reg moved o with
      | .error e => .error e
      | .ok true => .ok (some o)
      | .ok false => firstOverlap reg moved rest

/-- `Collider.collide(tag, x, y)`: translate by `(dx,dy)`, search the tag's
list, translate back, return the hit.  The untranslation lines sit after
the loop, so an exception leaves the receiver translated.  Returns the
receiver's final state paired with the JS result. -/
def Coll.collide (reg : OverlapReg) (scene : List (String × List Coll))
    (self : Coll) (tag : String) (dx dy : ℚ) : Coll × Except JsErr (Option Coll) :=
  let moved := self.translate dx dy
  match firstOverlap reg moved (allCollidersInTag scene tag) with
  | .ok r => (moved.translate (-dx) (-dy), .ok r)
  | .error e => (moved, .error e)

/-- `Collider.check(tag, x, y)` = `this.collide(tag, x, y) != null`. -/
def Coll.check (reg : OverlapReg) (scene : List (String × List Coll))
    (self : Coll) (tag : String) (dx dy : ℚ) : Coll × Except JsErr Bool :=
  match self.collide reg scene tag dx dy with
  | (s, .ok r) => (s, .ok r.isSome)
  | (s, .error e) => (s, .error e)

/-- `Collider.collides(tags, x, y)`: the first hit across the ordered tag
list, each tag probed by a full `collide` call. -/
def Coll.collidesQ (reg : OverlapReg) (scene : List (String × List Coll))
    (self : Coll) (tags : List String) (dx dy : ℚ) : Coll × Except JsErr (Option Coll) :=
  match tags with
  | [] => (self, .ok none)
  | tag :: rest =>
      match self.collide reg scene tag dx dy with
      | (s, .ok none) => Coll.collidesQ reg scene s rest dx dy
      | (s, .ok (some h)) => (s, .ok (some h))
      | (s, .error e) => (s, .error e)

/-- The accumulation loop inside `Collider.collideAll`: every collider the
translated receiver overlaps, in list order. -/
def allOverlaps (reg : OverlapReg) (moved : Coll) : List Coll → Except JsErr (List Coll)
  | [] => .ok []
  | o :: rest =>
      match overlap reg moved o with
      | .error e => .error e
      | .ok true =>
          match allOverlaps reg moved rest with
          | .ok l => .ok (o :: l)
          | .error e => .error e
      | .ok false => allOverlaps reg moved rest

/-- `Collider.collideAll(tag, x, y)`: like `collide` but collecting every
hit; the restore lines likewise only run when no overlap test throws. -/
def Coll.collideAll (reg : OverlapReg) (scene : List (String × List Coll))
    (self : Coll) (tag : String) (dx dy : ℚ) : Coll × Except JsErr (List Coll) :=
  let moved := self.translate dx dy
  match allOverlaps reg moved (allCollidersInTag scene tag) with
  | .ok l => (moved.translate (-dx) (-dy), .ok l)
  | .error e => (moved, .error e)

/-! ## Physics mover (src/components/physics.ts)

The mover is a `Physics` component (a `Hitbox`) attached to an entity whose
position `entity.x/y` it mutates.  The scene's tag lists hold collider
*references*: possibly the mover itself (the very object being translated
during a probe) and other Hitbox colliders, whose owning entity may be the
mover's entity (they then read the live entity position).  The solid-tagged
colliders are taken to be Hitboxes, so `Collider.overlap` resolves to the
`DefaultOverlapTests` `Hitbox`/`Hitbox` entry, which (after the
argument-swapped overwrite for the symmetric pair) evaluates
`hitboxTest(other, this)`.  Collision callbacks are recorded as events. -/

/-- An entry of a scene tag list: the mover's own `Physics` collider, or
another Hitbox collider (a value of `Coll`, its `type` field unused). -/
inductive SceneRef where
  | self : SceneRef
  | other : Coll → SceneRef
deriving DecidableEq, Repr

/-- A recorded collision-callback invocation: `onCollideX(hit)`,
`onCollideY(hit)`, or a member `cb` of the `onCollide` list called with
`(horizontal, hit)`. -/
inductive PEvent where
  | onCollideX : SceneRef → PEvent
  | onCollideY : SceneRef → PEvent
  | onCollide : ℕ → Bool → SceneRef → PEvent
deriving DecidableEq, Repr

/-- The immutable surroundings of a `Physics` mover: its entity id, its
component-local position and Hitbox shape, `solids`, the scene's tag
lists, which collision callbacks exist, `speed`, and `Engine.delta`. -/
structure PWorld where
  moverId : ℕ
  posX : ℚ
  posY : ℚ
  left : ℚ
  top : ℚ
  width : ℚ
  height : ℚ
  solids : List String
  scene : List (String × List SceneRef)
  hasOnCollideX : Bool
  hasOnCollideY : Bool
  onCollide : List ℕ
  speedX : ℚ
  speedY : ℚ
  delta : ℚ

/-- The mutable state a move touches: the entity position and the
sub-pixel `remainder`. -/
structure PState where
  ex : ℚ
  ey : ℚ
  remX : ℚ
  remY : ℚ
deriving DecidableEq, Repr

namespace Physics

/-- The owning entity's `x` for a scene collider: the live mover-entity
position when it is owned by the mover's entity, else its stored one. -/
def ownerX (w : PWorld) (s : PState) (c : Coll) : ℚ :=
  if c.entity = some w.moverId then s.ex else c.entX

/-- The owning entity's `y` for a scene collider. -/
def ownerY (w : PWorld) (s : PState) (c : Coll) : ℚ :=
  if c.entity = some w.moverId then s.ey else c.entY

/-- The mover's `sceneLeft` while translated by `dx`
(`entity.x + (position.x + dx) + left`). -/
def moverLeft (w : PWorld) (s : PState) (dx : ℚ) : ℚ := s.ex + (w.posX + dx) + w.left

/-- The mover's `sceneTop` while translated by `dy`. -/
def moverTop (w : PWorld) (s : PState) (dy : ℚ) : ℚ := s.ey + (w.posY + dy) + w.top

/-- `Collider.overlap(this, other)` for a probe translated by `(dx,dy)`:
for another collider, `hitboxTest(other, this)` on live scene bounds; for
the mover's own entry the two arguments are the same translated object. -/
def overlapRef (w : PWorld) (s : PState) (dx dy : ℚ) : SceneRef → Bool
  | .self =>
      decide (moverLeft w s dx + w.width > moverLeft w s dx
        ∧ moverTop w s dy + w.height > moverTop w s dy
        ∧ moverLeft w s dx < moverLeft w s dx + w.width
        ∧ moverTop w s dy < moverTop w s dy + w.height)
  | .other c =>
      let oL := ownerX w s c + c.posX + c.left
      let oT := ownerY w s c + c.posY + c.top
      decide (oL + c.width > moverLeft w s dx
        ∧ oT + c.height > moverTop w s dy
        ∧ oL < moverLeft w s dx + w.width
        ∧ oT < moverTop w s dy + w.height)

/-- The scene tag list seen by the mover's probes. -/
def refsInTag (w : PWorld) (tag : String) : List SceneRef :=
  (dictGet w.scene tag).getD []

/-- `Collider.collide(tag, dx, dy)` as invoked from the mover's probes:
the first collider in the tag's list the translated mover overlaps. -/
def collideTag (w : PWorld) (s : PState) (dx dy : ℚ) (tag : String) : Option SceneRef :=
  (refsInTag w tag).find? (overlapRef w s dx dy)

/-- `this.collides(this.solids, dx, dy)`: the first hit across the ordered
solids tags. -/
def collidesSolids (w : PWorld) (s : PState) (dx dy : ℚ) : List String → Option SceneRef
  | [] => none
  | t :: rest =>
      match collideTag w s dx dy t with
      | some h => some h
      | none => collidesSolids w s dx dy rest

/-- `hit && hit.entity ? hit.entity === entity : false`. -/
def isMe (w : PWorld) : SceneRef → Bool
  | .self => true
  | .other c =>
      match c.entity with
      | none => false
      | some i => decide (i = w.moverId)

/-- The callbacks fired when a horizontal sweep is blocked: `onCollideX`
when set, then every `onCollide` entry with `(true, hit)`. -/
def blockX (w : PWorld) (hit : SceneRef) : List PEvent :=
  (if w.hasOnCollideX then [PEvent.onCollideX hit] else [])
    ++ w.onCollide.map (fun cb => PEvent.onCollide cb true hit)

/-- The callbacks fired when a vertical sweep is blocked. -/
def blockY (w : PWorld) (hit : SceneRef) : List PEvent :=
  (if w.hasOnCollideY then [PEvent.onCollideY hit] else [])
    ++ w.onCollide.map (fun cb => PEvent.onCollide cb false hit)

/-- The `while (amount > 0)` loop of `moveXAbsolute`: probe at `sign`; a
hit that is not the mover itself zeroes `remainder.x`, fires the
callbacks and returns `false`; otherwise step the entity by `sign`. -/
def sweepX (w : PWorld) (sign : ℤ) : ℕ → PState → PState × List PEvent × Bool
  | 0, s => (s, [], true)
  | n + 1, s =>
      match collidesSolids w s (sign : ℚ) 0 w.solids with
      | some r =>
          if isMe w r then sweepX w sign n { s with ex := s.ex + (sign : ℚ) }
          else ({ s with remX := 0 }, blockX w r, false)
      | none => sweepX w sign n { s with ex := s.ex + (sign : ℚ) }

/-- The `while (amount > 0)` loop of `moveYAbsolute`. -/
def sweepY (w : PWorld) (sign : ℤ) : ℕ → PState → PState × List PEvent × Bool
  | 0, s => (s, [], true)
  | n + 1, s =>
      match collidesSolids w s 0 (sign : ℚ) w.solids with
      | some r =>
          if isMe w r then sweepY w sign n { s with ey := s.ey + (sign : ℚ) }
          else ({ s with remY := 0 }, blockY w r, false)
      | none => sweepY w sign n { s with ey := s.ey + (sign : ℚ) }

/-- `Physics.moveXAbsolute(amount)`: with no solids, add
`Math.round(amount)` to `entity.x`; otherwise sweep
`Math.abs(Math.round(amount))` unit steps of `Calc.sign(amount)`. -/
def moveXAbsolute (w : PWorld) (s : PState) (amount : ℚ) : PState × List PEvent × Bool :=
  if w.solids.length ≤ 0 then ({ s with ex := s.ex + (jsRound amount : ℚ) }, [], true)
  else sweepX w (jsSign amount) (jsRound amount).natAbs s

/-- `Physics.moveYAbsolute(amount)`. -/
def moveYAbsolute (w : PWorld) (s : PState) (amount : ℚ) : PState × List PEvent × Bool :=
  if w.solids.length ≤ 0 then ({ s with ey := s.ey + (jsRound amount : ℚ) }, [], true)
  else sweepY w (jsSign amount) (jsRound amount).natAbs s

/-- `Physics.moveX(amount)`: fold `amount` into `remainder.x`, keep
`moveBy % 1` as the new remainder, pass the rest to `moveXAbsolute`. -/
def moveX (w : PWorld) (s : PState) (amount : ℚ) : PState × List PEvent × Bool :=
  let moveBy := amount + s.remX
  let rem := jsMod1 moveBy
  moveXAbsolute w { s with remX := rem } (moveBy - rem)

/-- `Physics.moveY(amount)`. -/
def moveY (w : PWorld) (s : PState) (amount : ℚ) : PState × List PEvent × Bool :=
  let moveBy := amount + s.remY
  let rem := jsMod1 moveBy
  moveYAbsolute w { s with remY := rem } (moveBy - rem)

/-- `Physics.update()`: `moveX(speed.x * Engine.delta)` when `speed.x ≠ 0`,
then likewise for `y`. -/
def update (w : PWorld) (s : PState) : PState × List PEvent :=
  let (s1, e1) :=
    if w.speedX ≠ 0 then
      let (s', ev, _) := moveX w s (w.speedX * w.delta); (s', ev)
    else (s, [])
  let (s2, e2) :=
    if w.speedY ≠ 0 then
      let (s', ev, _) := moveY w s1 (w.speedY * w.delta); (s', ev)
    else (s1, [])
  (s2, e1 ++ e2)

end Physics

/-! ## Theorems -/

/-- C10: the `Rectangle` constructor coerces every falsy (absent or zero)
width/height argument to `1`, so it never yields a zero-extent rectangle. -/
theorem rectangle_constructor_coerces_falsy_extent (x y w h : Option ℚ) :
    (Rectangle.make x y w h).width ≠ 0 ∧ (Rectangle.make x y w h).height ≠ 0
    ∧ ((w = none ∨ w = some 0) → (Rectangle.make x y w h).width = 1)
    ∧ ((h = none ∨ h = some 0) → (Rectangle.make x y w h).height = 1) := by
  refine ⟨?_, ?_, ?_, ?_⟩
  · cases w with
    | none => simp [Rectangle.make, jsOr]
    | some v =>
        by_cases hv : v = 0 <;> simp [Rectangle.make, jsOr, hv]
  · cases h with
    | none => simp [Rectangle.make, jsOr]
    | some v =>
        by_cases hv : v = 0 <;> simp [Rectangle.make, jsOr, hv]
  · rintro (rfl | rfl) <;> simp [Rectangle.make, jsOr]
  · rintro (rfl | rfl) <;> simp [Rectangle.make, jsOr]

/-- C10 witness: a zero width argument comes out as `1`, not `0`. -/
theorem rectangle_constructor_coerces_falsy_extent_witness :
    (Rectangle.make none none (some 0) (some 5)).width = 1
    ∧ (Rectangle.make none none (some 0) (some 5)).height ≠ 0 :=
  ⟨(rectangle_constructor_coerces_falsy_extent none none (some 0) (some 5)).2.2.1 (Or.inr rfl),
   (rectangle_constructor_coerces_falsy_extent none none (some 0) (some 5)).2.1⟩

/-- C9 counterexample: `mult` does not leave the receiver unchanged — it
returns `this.set(...)`, mutating the receiver in place: multiplying white
by `1/2` changes the receiver's (= the returned object's) alpha. -/
theorem color_mult_mutates_receiver :
    Color.mult ⟨1, 1, 1, 1⟩ (1/2) ≠ ⟨1, 1, 1, 1⟩
    ∧ (Color.mult ⟨1, 1, 1, 1⟩ (1/2)).a = 1/2 := by
  constructor
  · intro hEq
    have := congrArg Color.a hEq
    norm_num [Color.mult, Color.set, Color.clamp01] at this
  · norm_num [Color.mult, Color.set, Color.clamp01]

/-- C9 amended: `mult(alpha)` mutates the receiver (and returns it): every
component is re-assigned through the clamping setter, so `r`, `g`, `b`
keep their values whenever already in `[0,1]` and `a` becomes the clamped
product `a * alpha`. -/
theorem color_mult_scales_alpha_in_place (c : Color) (alpha : ℚ) :
    Color.mult c alpha
      = { r := Color.clamp01 c.r, g := Color.clamp01 c.g, b := Color.clamp01 c.b,
          a := Color.clamp01 (c.a * alpha) }
    ∧ (0 ≤ c.r → c.r ≤ 1 → (Color.mult c alpha).r = c.r)
    ∧ (0 ≤ c.g → c.g ≤ 1 → (Color.mult c alpha).g = c.g)
    ∧ (0 ≤ c.b → c.b ≤ 1 → (Color.mult c alpha).b = c.b)
    ∧ (0 ≤ c.a * alpha → c.a * alpha ≤ 1 → (Color.mult c alpha).a = c.a * alpha) := by
  unfold Color.mult Color.set Color.clamp01
  refine ⟨rfl, ?_, ?_, ?_, ?_⟩ <;>
    · intro h1 h2
      simp [max_eq_right h1, min_eq_right h2]

/-- C9 witness: on a color with in-range components the alpha is scaled
and the rgb components survive. -/
theorem color_mult_scales_alpha_in_place_witness :
    (Color.mult ⟨1/2, 1/2, 1/2, 1⟩ (1/2)).a = 1 * (1/2)
    ∧ (Color.mult ⟨1/2, 1/2, 1/2, 1⟩ (1/2)).r = 1/2 :=
  ⟨(color_mult_scales_alpha_in_place ⟨1/2, 1/2, 1/2, 1⟩ (1/2)).2.2.2.2
      (by norm_num) (by norm_num),
   (color_mult_scales_alpha_in_place ⟨1/2, 1/2, 1/2, 1⟩ (1/2)).2.1
      (by norm_num) (by norm_num)⟩

/-- C6: `invert()` on a matrix with determinant `0` is a silent no-op
returning the matrix unchanged; on a nonsingular matrix it replaces the
contents with the inverse (the product with the original, under the
source's `multiply`, is the identity either way round). -/
theorem matrix_invert_singular_noop (m : FMatrix) :
    (m.det = 0 → m.invert = m)
    ∧ (m.det ≠ 0 → (m.invert.multiply m = FMatrix.identityMat
        ∧ m.multiply m.invert = FMatrix.identityMat)) := by
  constructor
  · intro h
    unfold FMatrix.det at h
    simp only [FMatrix.invert]
    rw [if_pos h]
  · intro h
    unfold FMatrix.det at h
    constructor <;>
      · simp only [FMatrix.invert, FMatrix.multiply, FMatrix.identityMat]
        rw [if_neg h]
        simp only [FMatrix.mk.injEq]
        refine ⟨?_, ?_, ?_, ?_, ?_, ?_, ?_, ?_, ?_⟩ <;>
          simp only [mul_one_div, mul_one, div_mul_eq_mul_div, ← mul_div_assoc, ← neg_div,
            div_add_div_same, div_sub_div_same] <;>
          first
          | (exact div_self h)
          | (rw [div_eq_one_iff_eq h]; ring)
          | (exact div_eq_zero_iff.mpr (Or.inl (by ring)))

/-- C6 witness: the zero matrix round-trips unchanged, and a concrete
nonsingular diagonal matrix is inverted. -/
theorem matrix_invert_singular_noop_witness :
    FMatrix.zeroMat.invert = FMatrix.zeroMat
    ∧ (FMatrix.invert ⟨2, 0, 0, 0, 3, 0, 0, 0, 4⟩).multiply ⟨2, 0, 0, 0, 3, 0, 0, 0, 4⟩
        = FMatrix.identityMat :=
  ⟨(matrix_invert_singular_noop FMatrix.zeroMat).1 (by norm_num [FMatrix.det, FMatrix.zeroMat]),
   ((matrix_invert_singular_noop ⟨2, 0, 0, 0, 3, 0, 0, 0, 4⟩).2
      (by norm_num [FMatrix.det])).1⟩

/-- C3: the registered `Hitbox`/`Hitbox` overlap test (as dispatched
through `Collider.overlap` and the registry written by
`DefaultOverlapTests`, including the argument-swapped overwrite for the
symmetric pair) holds exactly on the open-interval AABB condition; edge
contact does not overlap, one unit of interpenetration does. -/
theorem hitbox_overlap_open_interval (a b : Coll)
    (ha : a.type = "Hitbox") (hb : b.type = "Hitbox") :
    (overlap hitboxReg a b = Except.ok true ↔
      (a.sceneRight > b.sceneLeft ∧ a.sceneBottom > b.sceneTop
        ∧ a.sceneLeft < b.sceneRight ∧ a.sceneTop < b.sceneBottom))
    ∧ overlap hitboxReg ⟨"Hitbox", none, 0, 0, 0, 0, 0, 0, 10, 10⟩
        ⟨"Hitbox", none, 0, 0, 0, 0, 10, 0, 10, 10⟩ = Except.ok false
    ∧ overlap hitboxReg ⟨"Hitbox", none, 0, 0, 0, 0, 0, 0, 10, 10⟩
        ⟨"Hitbox", none, 0, 0, 0, 0, 9, 0, 10, 10⟩ = Except.ok true := by
  refine ⟨?_, ?_, ?_⟩
  · have hov : overlap hitboxReg a b = Except.ok (hitboxTest b a) := by
      unfold overlap
      rw [ha]
      have hd : dictGet hitboxReg "Hitbox"
          = some [("Hitbox", fun x y => hitboxTest y x)] := rfl
      rw [hd]
      show overlapInner [("Hitbox", fun x y => hitboxTest y x)] a b = _
      unfold overlapInner
      rw [hb]
      rfl
    rw [hov]
    simp only [hitboxTest, Except.ok.injEq, decide_eq_true_eq]
    constructor
    · rintro ⟨h1, h2, h3, h4⟩
      exact ⟨h3, h4, h1, h2⟩
    · rintro ⟨h1, h2, h3, h4⟩
      exact ⟨h3, h4, h1, h2⟩
  · norm_num [overlap, overlapInner, hitboxReg, registerOverlapTest, dictGet, dictSet,
      hitboxTest, Coll.sceneLeft, Coll.sceneRight, Coll.sceneTop, Coll.sceneBottom,
      Coll.sceneX, Coll.sceneY]
  · norm_num [overlap, overlapInner, hitboxReg, registerOverlapTest, dictGet, dictSet,
      hitboxTest, Coll.sceneLeft, Coll.sceneRight, Coll.sceneTop, Coll.sceneBottom,
      Coll.sceneX, Coll.sceneY]

/-- C3 witness: the open-interval condition applied at a concrete
interpenetrating pair. -/
theorem hitbox_overlap_open_interval_witness :
    overlap hitboxReg ⟨"Hitbox", none, 0, 0, 0, 0, 9, 0, 10, 10⟩
      ⟨"Hitbox", none, 0, 0, 0, 0, 0, 0, 10, 10⟩ = Except.ok true :=
  ((hitbox_overlap_open_interval ⟨"Hitbox", none, 0, 0, 0, 0, 9, 0, 10, 10⟩
      ⟨"Hitbox", none, 0, 0, 0, 0, 0, 0, 10, 10⟩ rfl rfl).1).mpr
    (by norm_num [Coll.sceneLeft, Coll.sceneRight, Coll.sceneTop, Coll.sceneBottom,
      Coll.sceneX, Coll.sceneY])

/-- C5 counterexample: `Collider.overlap` on an unregistered pair throws
the bare `TypeError` of the failed lookup/call itself — the source builds
no assertion message naming the missing `(type, type)` key; in the
inner-miss case the error identifies nothing at all. -/
theorem overlap_unregistered_pair_bare_typeerror :
    overlap hitboxReg ⟨"Hitbox", none, 0, 0, 0, 0, 0, 0, 1, 1⟩
        ⟨"Circle", none, 0, 0, 0, 0, 0, 0, 1, 1⟩ = Except.error JsErr.callOfUndefined
    ∧ overlap hitboxReg ⟨"Circle", none, 0, 0, 0, 0, 0, 0, 1, 1⟩
        ⟨"Hitbox", none, 0, 0, 0, 0, 0, 0, 1, 1⟩ = Except.error JsErr.readPropOfUndefined :=
  ⟨rfl, rfl⟩

/-- C5 amended: an unregistered `(type, type)` pair makes
`Collider.overlap` throw (the registry lookup produces `undefined` and the
read/call of it raises), so the query fails loudly and never silently
reports no overlap. -/
theorem overlap_unregistered_pair_errors (reg : OverlapReg) (a b : Coll)
    (h : ((dictGet reg a.type).bind (fun inner => dictGet inner b.type)).isNone = true) :
    (∃ e, overlap reg a b = Except.error e) ∧ ∀ v, overlap reg a b ≠ Except.ok v := by
  cases houter : dictGet reg a.type with
  | none =>
      have hov : overlap reg a b = Except.error JsErr.readPropOfUndefined := by
        unfold overlap
        rw [houter]
      exact ⟨⟨JsErr.readPropOfUndefined, hov⟩, fun v hv => by rw [hov] at hv; exact absurd hv (by simp)⟩
  | some inner =>
      rw [houter] at h
      have hinner : dictGet inner b.type = none := by
        cases hi : dictGet inner b.type with
        | none => rfl
        | some f =>
            exfalso
            have hb : (some inner).bind (fun inner => dictGet inner b.type) = some f := by
              simp [hi]
            rw [hb] at h
            simp at h
      have hov : overlap reg a b = Except.error JsErr.callOfUndefined := by
        unfold overlap
        rw [houter]
        show overlapInner inner a b = Except.error JsErr.callOfUndefined
        unfold overlapInner
        rw [hinner]
      exact ⟨⟨JsErr.callOfUndefined, hov⟩, fun v hv => by rw [hov] at hv; exact absurd hv (by simp)⟩

/-- C5 witness: the unregistered pair of the counterexample, through the
amended theorem. -/
theorem overlap_unregistered_pair_errors_witness :
    (∃ e, overlap hitboxReg ⟨"Hitbox", none, 0, 0, 0, 0, 0, 0, 1, 1⟩
        ⟨"Circle", none, 0, 0, 0, 0, 0, 0, 1, 1⟩ = Except.error e)
    ∧ ∀ v, overlap hitboxReg ⟨"Hitbox", none, 0, 0, 0, 0, 0, 0, 1, 1⟩
        ⟨"Circle", none, 0, 0, 0, 0, 0, 0, 1, 1⟩ ≠ Except.ok v :=
  overlap_unregistered_pair_errors hitboxReg
    ⟨"Hitbox", none, 0, 0, 0, 0, 0, 0, 1, 1⟩ ⟨"Circle", none, 0, 0, 0, 0, 0, 0, 1, 1⟩ rfl

/-- Undoing the temporary translation restores the collider exactly. -/
theorem Coll.translate_cancel (c : Coll) (dx dy : ℚ) :
    (c.translate dx dy).translate (-dx) (-dy) = c := by
  simp [Coll.translate]

/-- `collide` either restores the receiver (normal return) or leaves it
translated (when an overlap test threw). -/
theorem Coll.collide_cases (reg : OverlapReg) (scene : List (String × List Coll))
    (self : Coll) (tag : String) (dx dy : ℚ) :
    (∃ r, Coll.collide reg scene self tag dx dy = (self, Except.ok r))
    ∨ (∃ e, Coll.collide reg scene self tag dx dy
        = (self.translate dx dy, Except.error e)) := by
  simp only [Coll.collide]
  cases h : firstOverlap reg (self.translate dx dy) (allCollidersInTag scene tag) with
  | ok r => exact Or.inl ⟨r, by rw [Coll.translate_cancel]⟩
  | error e => exact Or.inr ⟨e, rfl⟩

/-- `collideAll` likewise restores on normal return and stays translated
when an overlap test threw. -/
theorem Coll.collideAll_cases (reg : OverlapReg) (scene : List (String × List Coll))
    (self : Coll) (tag : String) (dx dy : ℚ) :
    (∃ l, Coll.collideAll reg scene self tag dx dy = (self, Except.ok l))
    ∨ (∃ e, Coll.collideAll reg scene self tag dx dy
        = (self.translate dx dy, Except.error e)) := by
  simp only [Coll.collideAll]
  cases h : allOverlaps reg (self.translate dx dy) (allCollidersInTag scene tag) with
  | ok l => exact Or.inl ⟨l, by rw [Coll.translate_cancel]⟩
  | error e => exact Or.inr ⟨e, rfl⟩

/-- C4 counterexample: with an unregistered collider type in the probed
tag list, the overlap test throws mid-query and `collide` leaves the
receiver translated by `(dx,dy) = (5,0)` instead of restoring it. -/
theorem collide_not_restored_on_throw :
    Coll.collide hitboxReg [("solid", [⟨"Circle", none, 0, 0, 0, 0, 0, 0, 1, 1⟩])]
        ⟨"Hitbox", none, 0, 0, 0, 0, 0, 0, 1, 1⟩ "solid" 5 0
      = (Coll.translate ⟨"Hitbox", none, 0, 0, 0, 0, 0, 0, 1, 1⟩ 5 0,
         Except.error JsErr.callOfUndefined)
    ∧ Coll.translate ⟨"Hitbox", none, 0, 0, 0, 0, 0, 0, 1, 1⟩ 5 0
        ≠ ⟨"Hitbox", none, 0, 0, 0, 0, 0, 0, 1, 1⟩ := by
  refine ⟨rfl, ?_⟩
  intro hEq
  have := congrArg Coll.posX hEq
  norm_num [Coll.translate] at this

/-- C4 amended: every collision query (`collide`, `check`, `collides`,
`collideAll`) restores the receiver's position whenever it returns
normally; when an overlap test throws, the exception propagates before the
untranslate statements run and the receiver is left translated by
`(dx,dy)`. -/
theorem collider_queries_restore_position (reg : OverlapReg)
    (scene : List (String × List Coll)) (self : Coll) (tag : String)
    (tags : List String) (dx dy : ℚ) :
    ((∀ r, (Coll.collide reg scene self tag dx dy).2 = Except.ok r →
        (Coll.collide reg scene self tag dx dy).1 = self)
      ∧ ∀ e, (Coll.collide reg scene self tag dx dy).2 = Except.error e →
        (Coll.collide reg scene self tag dx dy).1 = self.translate dx dy)
    ∧ ((∀ r, (Coll.check reg scene self tag dx dy).2 = Except.ok r →
        (Coll.check reg scene self tag dx dy).1 = self)
      ∧ ∀ e, (Coll.check reg scene self tag dx dy).2 = Except.error e →
        (Coll.check reg scene self tag dx dy).1 = self.translate dx dy)
    ∧ ((∀ l, (Coll.collideAll reg scene self tag dx dy).2 = Except.ok l →
        (Coll.collideAll reg scene self tag dx dy).1 = self)
      ∧ ∀ e, (Coll.collideAll reg scene self tag dx dy).2 = Except.error e →
        (Coll.collideAll reg scene self tag dx dy).1 = self.translate dx dy)
    ∧ ((∀ r, (Coll.collidesQ reg scene self tags dx dy).2 = Except.ok r →
        (Coll.collidesQ reg scene self tags dx dy).1 = self)
      ∧ ∀ e, (Coll.collidesQ reg scene self tags dx dy).2 = Except.error e →
        (Coll.collidesQ reg scene self tags dx dy).1 = self.translate dx dy) := by
  have hcc := Coll.collide_cases reg scene self tag dx dy
  have hca := Coll.collideAll_cases reg scene self tag dx dy
  refine ⟨⟨?_, ?_⟩, ⟨?_, ?_⟩, ⟨?_, ?_⟩, ?_⟩
  · intro r hr
    rcases hcc with ⟨r', hc⟩ | ⟨e', hc⟩ <;> rw [hc] at hr ⊢ <;> simp_all
  · intro e he
    rcases hcc with ⟨r', hc⟩ | ⟨e', hc⟩ <;> rw [hc] at he ⊢ <;> simp_all
  · intro r hr
    unfold Coll.check at hr ⊢
    rcases hcc with ⟨r', hc⟩ | ⟨e', hc⟩ <;> rw [hc] at hr ⊢ <;> simp_all
  · intro e he
    unfold Coll.check at he ⊢
    rcases hcc with ⟨r', hc⟩ | ⟨e', hc⟩ <;> rw [hc] at he ⊢ <;> simp_all
  · intro l hl
    rcases hca with ⟨l', hc⟩ | ⟨e', hc⟩ <;> rw [hc] at hl ⊢ <;> simp_all
  · intro e he
    rcases hca with ⟨l', hc⟩ | ⟨e', hc⟩ <;> rw [hc] at he ⊢ <;> simp_all
  · clear hcc hca
    induction tags generalizing self with
    | nil =>
        exact ⟨fun r hr => rfl, fun e he => by simp [Coll.collidesQ] at he⟩
    | cons t rest ih =>
        constructor
        · intro r hr
          unfold Coll.collidesQ at hr ⊢
          rcases Coll.collide_cases reg scene self t dx dy with ⟨r', hc⟩ | ⟨e', hc⟩ <;>
            rw [hc] at hr ⊢
          · cases r' with
            | none => exact (ih self).1 r hr
            | some h' => simp_all
          · simp_all
        · intro e he
          unfold Coll.collidesQ at he ⊢
          rcases Coll.collide_cases reg scene self t dx dy with ⟨r', hc⟩ | ⟨e', hc⟩
          · rw [hc] at he ⊢
            cases r' with
            | none => exact (ih self).2 e he
            | some h' => simp_all
          · rw [hc] at he ⊢

/-- C4 witness: a normally returning query restores the position; a
throwing one leaves the collider translated. -/
theorem collider_queries_restore_position_witness :
    (Coll.collide hitboxReg [] ⟨"Hitbox", none, 0, 0, 0, 0, 0, 0, 1, 1⟩ "solid" 5 0).1
      = ⟨"Hitbox", none, 0, 0, 0, 0, 0, 0, 1, 1⟩
    ∧ (Coll.collide hitboxReg [("solid", [⟨"Circle", none, 2, 0, 0, 0, 0, 0, 1, 1⟩])]
        ⟨"Hitbox", none, 0, 0, 0, 0, 0, 0, 1, 1⟩ "solid" 5 0).1
      = Coll.translate ⟨"Hitbox", none, 0, 0, 0, 0, 0, 0, 1, 1⟩ 5 0 :=
  ⟨(collider_queries_restore_position hitboxReg []
      ⟨"Hitbox", none, 0, 0, 0, 0, 0, 0, 1, 1⟩ "solid" [] 5 0).1.1 none rfl,
   (collider_queries_restore_position hitboxReg
      [("solid", [⟨"Circle", none, 2, 0, 0, 0, 0, 0, 1, 1⟩])]
      ⟨"Hitbox", none, 0, 0, 0, 0, 0, 0, 1, 1⟩ "solid" [] 5 0).1.2
      JsErr.callOfUndefined rfl⟩

/-- C8 counterexample: `clean()` does not reset the `dirty` flag — after
an add/remove/clean round-trip the flag is still set (so every later
`clean` re-scans). -/
theorem objectList_clean_keeps_dirty_flag :
    (ObjectList.clean (ObjectList.remove (ObjectList.add (ObjectList.empty ℤ) 1) 1).1).dirty
      = true
    ∧ (ObjectList.remove (ObjectList.add (ObjectList.empty ℤ) 1) 1).1.dirty = true :=
  ⟨rfl, rfl⟩

/-- C8 amended: `clean()` compacts only when `dirty` but leaves the flag
unchanged (it is never reset); `sort(compare)` reorders only when
`unsorted` and resets that flag; `add` sets `unsorted`; a successful
`remove` sets `dirty`. -/
theorem objectList_flag_discipline {α : Type} [DecidableEq α] (l : ObjectList α)
    (cmp : α → α → ℤ) (x : α) :
    (l.unsorted = false → ObjectList.sort cmp l = l)
    ∧ (ObjectList.sort cmp l).unsorted = false
    ∧ (l.dirty = false → ObjectList.clean l = l)
    ∧ (ObjectList.clean l).dirty = l.dirty
    ∧ (ObjectList.add l x).unsorted = true
    ∧ ((ObjectList.remove l x).2 = true → (ObjectList.remove l x).1.dirty = true) := by
  refine ⟨?_, ?_, ?_, ?_, rfl, ?_⟩
  · intro h
    unfold ObjectList.sort
    rw [h]
    simp
  · unfold ObjectList.sort
    split_ifs with h
    · rfl
    · simpa using h
  · intro h
    unfold ObjectList.clean
    rw [h]
    simp
  · unfold ObjectList.clean
    split_ifs <;> rfl
  · unfold ObjectList.remove
    cases hidx : l.objects.toList.findIdx? (fun slot => slot = some x) with
    | none => simp
    | some i => simp

/-- C8 witness: sorting an already-sorted (flag unset) list is a no-op,
and a successful remove marks the list dirty. -/
theorem objectList_flag_discipline_witness :
    ObjectList.sort (fun a b => a - b) (ObjectList.empty ℤ) = ObjectList.empty ℤ
    ∧ (ObjectList.remove (ObjectList.add (ObjectList.empty ℤ) 2) 2).1.dirty = true :=
  ⟨(objectList_flag_discipline (ObjectList.empty ℤ) (fun a b => a - b) 2).1 rfl,
   (objectList_flag_discipline (ObjectList.add (ObjectList.empty ℤ) 2)
      (fun a b => a - b) 2).2.2.2.2.2 rfl⟩

/-- C7 counterexample: cropping a rectangle lying far to the left leaves a
negative width (the overflow is folded into `width` and never zeroed), so
the result is neither within the target's bounds nor of nonnegative
extent. -/
theorem cropRect_negative_extent :
    Rectangle.cropRect ⟨0, 0, 10, 10⟩ ⟨-100, 0, 5, 5⟩ = ⟨0, 0, -95, 5⟩
    ∧ (Rectangle.cropRect ⟨0, 0, 10, 10⟩ ⟨-100, 0, 5, 5⟩).width < 0
    ∧ (Rectangle.cropRect ⟨0, 0, 10, 10⟩ ⟨-100, 0, 5, 5⟩).right
        < (⟨0, 0, 10, 10⟩ : Rectangle).left := by
  refine ⟨?_, ?_, ?_⟩ <;>
    norm_num [Rectangle.cropRect, Rectangle.cropStep1, Rectangle.cropStep2,
      Rectangle.cropStep3, Rectangle.cropStep4, Rectangle.cropStep5, Rectangle.cropStep6,
      Rectangle.right, Rectangle.bottom, Rectangle.left]

/-- Block 1 leaves the left edge at or right of `this.x`. -/
theorem cropStep1_x (t r : Rectangle) : t.x ≤ (Rectangle.cropStep1 t r).x := by
  unfold Rectangle.cropStep1
  split_ifs with h
  · exact le_refl t.x
  · exact not_lt.mp h

/-- Block 2 only touches `y` and `height`. -/
theorem cropStep2_keeps_x (t r : Rectangle) :
    (Rectangle.cropStep2 t r).x = r.x ∧ (Rectangle.cropStep2 t r).width = r.width := by
  unfold Rectangle.cropStep2
  split_ifs <;> exact ⟨rfl, rfl⟩

/-- After block 2 the top edge is at or below `this.x`, or exactly `this.y`. -/
theorem cropStep2_y (t r : Rectangle) :
    t.x ≤ (Rectangle.cropStep2 t r).y ∨ (Rectangle.cropStep2 t r).y = t.y := by
  unfold Rectangle.cropStep2
  split_ifs with h
  · exact Or.inr rfl
  · exact Or.inl (not_lt.mp h)

/-- Block 3 only touches `x` and `width`. -/
theorem cropStep3_keeps_y (t r : Rectangle) :
    (Rectangle.cropStep3 t r).y = r.y ∧ (Rectangle.cropStep3 t r).height = r.height := by
  unfold Rectangle.cropStep3
  split_ifs <;> exact ⟨rfl, rfl⟩

/-- After block 3 the left edge is at or left of `this.right`. -/
theorem cropStep3_x_le (t r : Rectangle) : (Rectangle.cropStep3 t r).x ≤ t.right := by
  unfold Rectangle.cropStep3
  split_ifs with h
  · exact le_refl t.right
  · exact not_lt.mp h

/-- Block 3 keeps the left edge at or right of `this.x` when it already
was and the target has nonnegative width. -/
theorem cropStep3_x_ge (t r : Rectangle) (hw : t.x ≤ t.right) (h : t.x ≤ r.x) :
    t.x ≤ (Rectangle.cropStep3 t r).x := by
  unfold Rectangle.cropStep3
  split_ifs with hc
  · exact hw
  · exact h

/-- Block 4 only touches `y` and `height`. -/
theorem cropStep4_keeps_x (t r : Rectangle) :
    (Rectangle.cropStep4 t r).x = r.x ∧ (Rectangle.cropStep4 t r).width = r.width := by
  unfold Rectangle.cropStep4
  split_ifs <;> exact ⟨rfl, rfl⟩

/-- After block 4 the top edge is at or above `this.bottom`. -/
theorem cropStep4_y_le (t r : Rectangle) : (Rectangle.cropStep4 t r).y ≤ t.bottom := by
  unfold Rectangle.cropStep4
  split_ifs with h
  · exact le_refl t.bottom
  · exact not_lt.mp h

/-- Block 4 preserves the block-2 top-edge invariant, given
`this.x ≤ this.bottom`. -/
theorem cropStep4_y_inv (t r : Rectangle) (hxb : t.x ≤ t.bottom)
    (h : t.x ≤ r.y ∨ r.y = t.y) :
    t.x ≤ (Rectangle.cropStep4 t r).y ∨ (Rectangle.cropStep4 t r).y = t.y := by
  unfold Rectangle.cropStep4
  split_ifs with hc
  · exact Or.inl hxb
  · exact h

/-- Block 5 only touches `width`. -/
theorem cropStep5_keeps (t r : Rectangle) :
    (Rectangle.cropStep5 t r).x = r.x ∧ (Rectangle.cropStep5 t r).y = r.y
    ∧ (Rectangle.cropStep5 t r).height = r.height := by
  unfold Rectangle.cropStep5
  split_ifs <;> exact ⟨rfl, rfl, rfl⟩

/-- After block 5 the right edge is clamped to `this.right`. -/
theorem cropStep5_right (t r : Rectangle) :
    (Rectangle.cropStep5 t r).right ≤ t.right := by
  unfold Rectangle.cropStep5
  split_ifs with h
  · show r.x + (t.right - r.x) ≤ t.right
    linarith
  · exact not_lt.mp h

/-- Block 6 only touches `height`. -/
theorem cropStep6_keeps (t r : Rectangle) :
    (Rectangle.cropStep6 t r).x = r.x ∧ (Rectangle.cropStep6 t r).y = r.y
    ∧ (Rectangle.cropStep6 t r).width = r.width := by
  unfold Rectangle.cropStep6
  split_ifs <;> exact ⟨rfl, rfl, rfl⟩

/-- After block 6 the bottom edge is clamped to `this.bottom`. -/
theorem cropStep6_bottom (t r : Rectangle) :
    (Rectangle.cropStep6 t r).bottom ≤ t.bottom := by
  unfold Rectangle.cropStep6
  split_ifs with h
  · show r.y + (t.bottom - r.y) ≤ t.bottom
    linarith
  · exact not_lt.mp h

/-- Fixed-point lemma for block 1. -/
theorem cropStep1_fix (t s : Rectangle) (h : t.x ≤ s.x) :
    Rectangle.cropStep1 t s = s := by
  unfold Rectangle.cropStep1
  rw [if_neg (not_lt.mpr h)]

/-- Fixed-point lemma for block 2: either the guard fails, or the update
rewrites `y` and `height` to their current values. -/
theorem cropStep2_fix (t s : Rectangle) (h : t.x ≤ s.y ∨ s.y = t.y) :
    Rectangle.cropStep2 t s = s := by
  unfold Rectangle.cropStep2
  split_ifs with hc
  · rcases h with h | h
    · exact absurd hc (not_lt.mpr h)
    · obtain ⟨sx, sy, sw, sh⟩ := s
      simp only at h
      simp [Rectangle.mk.injEq, h]
  · rfl

/-- Fixed-point lemma for block 3. -/
theorem cropStep3_fix (t s : Rectangle) (h : s.x ≤ t.right) :
    Rectangle.cropStep3 t s = s := by
  unfold Rectangle.cropStep3
  rw [if_neg (not_lt.mpr h)]

/-- Fixed-point lemma for block 4. -/
theorem cropStep4_fix (t s : Rectangle) (h : s.y ≤ t.bottom) :
    Rectangle.cropStep4 t s = s := by
  unfold Rectangle.cropStep4
  rw [if_neg (not_lt.mpr h)]

/-- Fixed-point lemma for block 5. -/
theorem cropStep5_fix (t s : Rectangle) (h : s.right ≤ t.right) :
    Rectangle.cropStep5 t s = s := by
  unfold Rectangle.cropStep5
  rw [if_neg (not_lt.mpr h)]

/-- Fixed-point lemma for block 6. -/
theorem cropStep6_fix (t s : Rectangle) (h : s.bottom ≤ t.bottom) :
    Rectangle.cropStep6 t s = s := by
  unfold Rectangle.cropStep6
  rw [if_neg (not_lt.mpr h)]

/-- The state reached by one `cropRect` pass satisfies bounds that make a
second pass a no-op. -/
theorem cropRect_post (t r : Rectangle) (hw : 0 ≤ t.width) (hh : 0 ≤ t.height)
    (hxb : t.x ≤ t.bottom) :
    t.x ≤ (Rectangle.cropRect t r).x
    ∧ (t.x ≤ (Rectangle.cropRect t r).y ∨ (Rectangle.cropRect t r).y = t.y)
    ∧ (Rectangle.cropRect t r).x ≤ t.right
    ∧ (Rectangle.cropRect t r).y ≤ t.bottom
    ∧ (Rectangle.cropRect t r).right ≤ t.right
    ∧ (Rectangle.cropRect t r).bottom ≤ t.bottom := by
  have hwr : t.x ≤ t.right := by
    unfold Rectangle.right
    linarith
  unfold Rectangle.cropRect
  set a1 := Rectangle.cropStep1 t r
  set a2 := Rectangle.cropStep2 t a1
  set a3 := Rectangle.cropStep3 t a2
  set a4 := Rectangle.cropStep4 t a3
  set a5 := Rectangle.cropStep5 t a4
  refine ⟨?_, ?_, ?_, ?_, ?_, cropStep6_bottom t a5⟩
  · rw [(cropStep6_keeps t a5).1, (cropStep5_keeps t a4).1, (cropStep4_keeps_x t a3).1]
    exact cropStep3_x_ge t a2 hwr ((cropStep2_keeps_x t a1).1.symm ▸ cropStep1_x t r)
  · rw [(cropStep6_keeps t a5).2.1, (cropStep5_keeps t a4).2.1]
    exact cropStep4_y_inv t a3 hxb ((cropStep3_keeps_y t a2).1.symm ▸ cropStep2_y t a1)
  · rw [(cropStep6_keeps t a5).1, (cropStep5_keeps t a4).1, (cropStep4_keeps_x t a3).1]
    exact cropStep3_x_le t a2
  · rw [(cropStep6_keeps t a5).2.1, (cropStep5_keeps t a4).2.1]
    exact cropStep4_y_le t a3
  · have h5 := cropStep5_right t a4
    unfold Rectangle.right at h5 ⊢
    rw [(cropStep6_keeps t a5).1, (cropStep6_keeps t a5).2.2]
    exact h5

/-- A rectangle already satisfying the pass invariants is a fixed point of
`cropRect`. -/
theorem cropRect_fix (t s : Rectangle) (h1 : t.x ≤ s.x)
    (h2 : t.x ≤ s.y ∨ s.y = t.y) (h3 : s.x ≤ t.right) (h4 : s.y ≤ t.bottom)
    (h5 : s.right ≤ t.right) (h6 : s.bottom ≤ t.bottom) :
    Rectangle.cropRect t s = s := by
  unfold Rectangle.cropRect
  rw [cropStep1_fix t s h1, cropStep2_fix t s h2, cropStep3_fix t s h3,
    cropStep4_fix t s h4, cropStep5_fix t s h5, cropStep6_fix t s h6]

/-- C7 amended: `cropRect` clamps the left edge to `this.x` (folding the
overflow into the width, which can go negative), treats the top edge with
the source's `r.y < this.x` guard, zeroes the extents only in the
far-overflow cases, and clamps right/bottom overflow; for a target with
nonnegative extents and `this.x ≤ this.bottom`, cropping twice equals
cropping once, and the result's `x`, `right`, `y`, `bottom` never exceed
the target's right/bottom bounds. -/
theorem cropRect_clamps_and_idempotent (t r : Rectangle) (hw : 0 ≤ t.width)
    (hh : 0 ≤ t.height) (hxb : t.x ≤ t.bottom) :
    Rectangle.cropRect t (Rectangle.cropRect t r) = Rectangle.cropRect t r
    ∧ t.x ≤ (Rectangle.cropRect t r).x
    ∧ (Rectangle.cropRect t r).x ≤ t.right
    ∧ (Rectangle.cropRect t r).right ≤ t.right
    ∧ (Rectangle.cropRect t r).y ≤ t.bottom
    ∧ (Rectangle.cropRect t r).bottom ≤ t.bottom := by
  obtain ⟨p1, p2, p3, p4, p5, p6⟩ := cropRect_post t r hw hh hxb
  exact ⟨cropRect_fix t (Rectangle.cropRect t r) p1 p2 p3 p4 p5 p6, p1, p3, p5, p4, p6⟩

/-- C7 witness: a concrete overlap-crop is idempotent and clipped. -/
theorem cropRect_clamps_and_idempotent_witness :
    Rectangle.cropRect ⟨0, 0, 10, 10⟩ (Rectangle.cropRect ⟨0, 0, 10, 10⟩ ⟨4, 4, 20, 20⟩)
      = Rectangle.cropRect ⟨0, 0, 10, 10⟩ ⟨4, 4, 20, 20⟩
    ∧ (Rectangle.cropRect ⟨0, 0, 10, 10⟩ ⟨4, 4, 20, 20⟩).right
        ≤ (⟨0, 0, 10, 10⟩ : Rectangle).right :=
  ⟨(cropRect_clamps_and_idempotent ⟨0, 0, 10, 10⟩ ⟨4, 4, 20, 20⟩
      (by norm_num) (by norm_num) (by norm_num [Rectangle.bottom])).1,
   (cropRect_clamps_and_idempotent ⟨0, 0, 10, 10⟩ ⟨4, 4, 20, 20⟩
      (by norm_num) (by norm_num) (by norm_num [Rectangle.bottom])).2.2.2.1⟩

/-- `Math.round` is the identity on integers. -/
theorem jsRound_intCast (n : ℤ) : jsRound (n : ℚ) = n := by
  unfold jsRound
  rw [add_comm, Int.floor_add_int]
  norm_num

/-- The integer part passed on by `moveX`/`moveY`: subtracting the `% 1`
remainder leaves `jsTrunc`. -/
theorem sub_jsMod1 (q : ℚ) : q - jsMod1 q = (jsTrunc q : ℚ) := by
  unfold jsMod1
  ring

/-- `moveXAbsolute` in ghost mode (no solids): the rounded displacement is
applied directly, with no events. -/
theorem moveXAbsolute_no_solids (w : PWorld) (s : PState) (amount : ℚ)
    (hs : w.solids = []) :
    Physics.moveXAbsolute w s amount
      = ({ s with ex := s.ex + (jsRound amount : ℚ) }, [], true) := by
  unfold Physics.moveXAbsolute
  rw [hs]
  simp

/-- `moveYAbsolute` in ghost mode. -/
theorem moveYAbsolute_no_solids (w : PWorld) (s : PState) (amount : ℚ)
    (hs : w.solids = []) :
    Physics.moveYAbsolute w s amount
      = ({ s with ey := s.ey + (jsRound amount : ℚ) }, [], true) := by
  unfold Physics.moveYAbsolute
  rw [hs]
  simp

/-- `update` when only the x speed is live runs exactly one `moveX` with
`speed.x * delta`. -/
theorem update_x_only (w : PWorld) (s : PState) (hx : w.speedX ≠ 0)
    (hy : w.speedY = 0) :
    Physics.update w s = ((Physics.moveX w s (w.speedX * w.delta)).1,
      (Physics.moveX w s (w.speedX * w.delta)).2.1) := by
  unfold Physics.update
  rcases hm : Physics.moveX w s (w.speedX * w.delta) with ⟨s', ev, b⟩
  simp [hx, hy]

/-- `moveX` in ghost mode: the requested amount is folded into the
remainder, the sign-preserving fractional part stays, the integer part
advances the entity. -/
theorem moveX_no_solids (w : PWorld) (s : PState) (amount : ℚ)
    (hs : w.solids = []) :
    Physics.moveX w s amount
      = ({ s with
            remX := jsMod1 (amount + s.remX)
            ex := s.ex + (jsTrunc (amount + s.remX) : ℚ) }, [], true) := by
  unfold Physics.moveX
  rw [moveXAbsolute_no_solids w _ _ hs, sub_jsMod1, jsRound_intCast]

/-- C2: with no solids, `moveX` keeps `(amount + remainder.x) % 1` as the
new remainder and advances the entity by the truncated integer part, so
`entity.x + remainder.x` gains exactly `amount` (no truncation loss); in
particular two `update` ticks at speed `(30, 0)` and `delta = 1/60`
starting from a zero remainder displace `x` by exactly `1`. -/
theorem physics_subpixel_remainder (w : PWorld) (s : PState) (amount : ℚ)
    (hs : w.solids = []) :
    ((Physics.moveX w s amount).2.1 = []
      ∧ (Physics.moveX w s amount).2.2 = true
      ∧ (Physics.moveX w s amount).1.remX = jsMod1 (amount + s.remX)
      ∧ (Physics.moveX w s amount).1.ex = s.ex + (jsTrunc (amount + s.remX) : ℚ)
      ∧ (Physics.moveX w s amount).1.ex + (Physics.moveX w s amount).1.remX
          = s.ex + s.remX + amount
      ∧ (Physics.moveX w s amount).1.ey = s.ey
      ∧ (Physics.moveX w s amount).1.remY = s.remY)
    ∧ (w.speedX = 30 → w.speedY = 0 → w.delta = 1/60 → s.remX = 0 →
        (Physics.update w (Physics.update w s).1).1.ex = s.ex + 1) := by
  constructor
  · rw [moveX_no_solids w s amount hs]
    refine ⟨rfl, rfl, rfl, rfl, ?_, rfl, rfl⟩
    show s.ex + (jsTrunc (amount + s.remX) : ℚ) + jsMod1 (amount + s.remX)
        = s.ex + s.remX + amount
    unfold jsMod1
    ring
  · intro h30 hy hd hrem
    have hx : w.speedX ≠ 0 := by rw [h30]; norm_num
    have hamt : w.speedX * w.delta = 1/2 := by rw [h30, hd]; norm_num
    have hu1 : (Physics.update w s).1
        = { s with
              remX := jsMod1 (1/2 + s.remX)
              ex := s.ex + (jsTrunc (1/2 + s.remX) : ℚ) } := by
      rw [update_x_only w s hx hy, hamt, moveX_no_solids w s (1/2) hs]
    have hmod : jsMod1 (1/2 + (0 : ℚ)) = 1/2 := by
      unfold jsMod1 jsTrunc
      norm_num
    have htr : jsTrunc (1/2 + (0 : ℚ)) = 0 := by
      unfold jsTrunc
      norm_num
    have htr2 : jsTrunc (1/2 + (1/2 : ℚ)) = 1 := by
      unfold jsTrunc
      norm_num
    rw [update_x_only w _ hx hy, hamt, moveX_no_solids w _ (1/2) hs]
    rw [hu1]
    simp only [hrem, hmod, htr, htr2]
    push_cast
    ring

/-- C2 witness: a concrete ghost-mode mover at speed `(30,0)`,
`delta = 1/60`, remainder `0`, gains exactly one unit of `x` over two
update ticks. -/
theorem physics_subpixel_remainder_witness :
    (Physics.update ⟨0, 0, 0, 0, 0, 1, 1, [], [], false, false, [], 30, 0, 1/60⟩
        (Physics.update ⟨0, 0, 0, 0, 0, 1, 1, [], [], false, false, [], 30, 0, 1/60⟩
          ⟨0, 0, 0, 0⟩).1).1.ex = (0 : ℚ) + 1
    ∧ (Physics.moveX ⟨0, 0, 0, 0, 0, 1, 1, [], [], false, false, [], 30, 0, 1/60⟩
        ⟨0, 0, 0, 0⟩ (1/2)).1.remX = jsMod1 (1/2 + (0 : ℚ)) :=
  ⟨(physics_subpixel_remainder
      ⟨0, 0, 0, 0, 0, 1, 1, [], [], false, false, [], 30, 0, 1/60⟩
      ⟨0, 0, 0, 0⟩ (1/2) rfl).2 rfl rfl rfl rfl,
   (physics_subpixel_remainder
      ⟨0, 0, 0, 0, 0, 1, 1, [], [], false, false, [], 30, 0, 1/60⟩
      ⟨0, 0, 0, 0⟩ (1/2) rfl).1.2.2.1⟩

/-- The number of `onCollideX` invocations recorded for a blocked
horizontal attempt is exactly one when the callback is set. -/
theorem blockX_count (w : PWorld) (r : SceneRef) (h : w.hasOnCollideX = true) :
    (Physics.blockX w r).count (PEvent.onCollideX r) = 1 := by
  unfold Physics.blockX
  rw [h]
  have hnot : PEvent.onCollideX r ∉ w.onCollide.map (fun cb => PEvent.onCollide cb true r) := by
    simp
  simp [List.count_append, List.count_eq_zero.mpr hnot]

/-- The number of `onCollideY` invocations recorded for a blocked vertical
attempt is exactly one when the callback is set. -/
theorem blockY_count (w : PWorld) (r : SceneRef) (h : w.hasOnCollideY = true) :
    (Physics.blockY w r).count (PEvent.onCollideY r) = 1 := by
  unfold Physics.blockY
  rw [h]
  have hnot : PEvent.onCollideY r ∉ w.onCollide.map (fun cb => PEvent.onCollide cb false r) := by
    simp
  simp [List.count_append, List.count_eq_zero.mpr hnot]

/-- Characterization of the horizontal sweep loop: it returns `true` with
no events after advancing the full distance past only self-probes, or it
halts at the first blocking probe with the remainder zeroed, the blocking
callbacks recorded, and the entity stopped just before the solid. -/
theorem sweepX_char (w : PWorld) (sg : ℤ) :
    ∀ (n : ℕ) (s : PState),
      ((Physics.sweepX w sg n s).2.2 = true →
        Physics.sweepX w sg n s = ({ s with ex := s.ex + (sg : ℚ) * (n : ℚ) }, [], true)
        ∧ ∀ k, k < n → ∀ r,
          Physics.collidesSolids w { s with ex := s.ex + (sg : ℚ) * (k : ℚ) }
            (sg : ℚ) 0 w.solids = some r → Physics.isMe w r = true)
      ∧ ((Physics.sweepX w sg n s).2.2 = false →
        ∃ k, k < n ∧ ∃ r,
          Physics.collidesSolids w { s with ex := s.ex + (sg : ℚ) * (k : ℚ) }
            (sg : ℚ) 0 w.solids = some r
          ∧ Physics.isMe w r = false
          ∧ (∀ j, j < k → ∀ r',
              Physics.collidesSolids w { s with ex := s.ex + (sg : ℚ) * (j : ℚ) }
                (sg : ℚ) 0 w.solids = some r' → Physics.isMe w r' = true)
          ∧ Physics.sweepX w sg n s
              = ({ s with
                    ex := s.ex + (sg : ℚ) * (k : ℚ)
                    remX := 0 }, Physics.blockX w r, false)) := by
  intro n
  induction n with
  | zero =>
      intro s
      constructor
      · intro _
        constructor
        · have h0 : ({ s with ex := s.ex + (sg : ℚ) * ((0 : ℕ) : ℚ) } : PState) = s := by
            simp
          rw [h0]
          rfl
        · intro k hk
          exact absurd hk (by omega)
      · intro hfalse
        simp [Physics.sweepX] at hfalse
  | succ n ih =>
      intro s
      have hadv : ∀ j : ℕ,
          ({ ({ s with ex := s.ex + (sg : ℚ) } : PState) with
              ex := ({ s with ex := s.ex + (sg : ℚ) } : PState).ex + (sg : ℚ) * (j : ℚ) } : PState)
            = { s with ex := s.ex + (sg : ℚ) * ((j + 1 : ℕ) : ℚ) } := by
        intro j
        simp only [PState.mk.injEq, and_true, true_and]
        push_cast
        ring
      have hs0 : ({ s with ex := s.ex + (sg : ℚ) * ((0 : ℕ) : ℚ) } : PState) = s := by
        simp
      cases hp : Physics.collidesSolids w s (sg : ℚ) 0 w.solids with
      | none =>
          have hstep : Physics.sweepX w sg (n + 1) s
              = Physics.sweepX w sg n { s with ex := s.ex + (sg : ℚ) } := by
            simp only [Physics.sweepX, hp]
          rw [hstep]
          constructor
          · intro htrue
            obtain ⟨heq, hfree⟩ := (ih { s with ex := s.ex + (sg : ℚ) }).1 htrue
            constructor
            · rw [heq]
              simp only [Prod.mk.injEq, PState.mk.injEq, and_true, true_and]
              push_cast
              ring
            · intro k hk r hr
              cases k with
              | zero =>
                  rw [hs0, hp] at hr
                  exact absurd hr (by simp)
              | succ j =>
                  have := hfree j (by omega) r (by rw [hadv j]; exact hr)
                  exact this
          · intro hfalse
            obtain ⟨k, hk, r, hr, hme, hfree, heq⟩ := (ih { s with ex := s.ex + (sg : ℚ) }).2 hfalse
            refine ⟨k + 1, by omega, r, ?_, hme, ?_, ?_⟩
            · rw [← hadv k]
              exact hr
            · intro j hj r' hr'
              cases j with
              | zero =>
                  rw [hs0, hp] at hr'
                  exact absurd hr' (by simp)
              | succ i =>
                  exact hfree i (by omega) r' (by rw [hadv i]; exact hr')
            · rw [heq]
              simp only [Prod.mk.injEq, PState.mk.injEq, and_true, true_and]
              push_cast
              ring
      | some r =>
          cases hme : Physics.isMe w r with
          | true =>
              have hstep : Physics.sweepX w sg (n + 1) s
                  = Physics.sweepX w sg n { s with ex := s.ex + (sg : ℚ) } := by
                simp only [Physics.sweepX, hp, hme]
                simp
              rw [hstep]
              constructor
              · intro htrue
                obtain ⟨heq, hfree⟩ := (ih { s with ex := s.ex + (sg : ℚ) }).1 htrue
                constructor
                · rw [heq]
                  simp only [Prod.mk.injEq, PState.mk.injEq, and_true, true_and]
                  push_cast
                  ring
                · intro k hk r' hr'
                  cases k with
                  | zero =>
                      rw [hs0, hp] at hr'
                      cases hr'
                      exact hme
                  | succ j =>
                      exact hfree j (by omega) r' (by rw [hadv j]; exact hr')
              · intro hfalse
                obtain ⟨k, hk, r', hr', hme', hfree, heq⟩ :=
                  (ih { s with ex := s.ex + (sg : ℚ) }).2 hfalse
                refine ⟨k + 1, by omega, r', ?_, hme', ?_, ?_⟩
                · rw [← hadv k]
                  exact hr'
                · intro j hj r'' hr''
                  cases j with
                  | zero =>
                      rw [hs0, hp] at hr''
                      cases hr''
                      exact hme
                  | succ i =>
                      exact hfree i (by omega) r'' (by rw [hadv i]; exact hr'')
                · rw [heq]
                  simp only [Prod.mk.injEq, PState.mk.injEq, and_true, true_and]
                  push_cast
                  ring
          | false =>
              have hstep : Physics.sweepX w sg (n + 1) s
                  = ({ s with remX := 0 }, Physics.blockX w r, false) := by
                simp only [Physics.sweepX, hp, hme]
                simp
              rw [hstep]
              constructor
              · intro htrue
                exact absurd htrue (by simp)
              · intro _
                refine ⟨0, by omega, r, ?_, hme, ?_, ?_⟩
                · rw [hs0]
                  exact hp
                · intro j hj
                  exact absurd hj (by omega)
                · simp only [Prod.mk.injEq, PState.mk.injEq, and_true, true_and]
                  push_cast
                  ring

/-- Characterization of the vertical sweep loop: it returns `true` with
no events after advancing the full distance past only self-probes, or it
halts at the first blocking probe with the remainder zeroed, the blocking
callbacks recorded, and the entity stopped just before the solid. -/
theorem sweepY_char (w : PWorld) (sg : ℤ) :
    ∀ (n : ℕ) (s : PState),
      ((Physics.sweepY w sg n s).2.2 = true →
        Physics.sweepY w sg n s = ({ s with ey := s.ey + (sg : ℚ) * (n : ℚ) }, [], true)
        ∧ ∀ k, k < n → ∀ r,
          Physics.collidesSolids w { s with ey := s.ey + (sg : ℚ) * (k : ℚ) }
            0 (sg : ℚ) w.solids = some r → Physics.isMe w r = true)
      ∧ ((Physics.sweepY w sg n s).2.2 = false →
        ∃ k, k < n ∧ ∃ r,
          Physics.collidesSolids w { s with ey := s.ey + (sg : ℚ) * (k : ℚ) }
            0 (sg : ℚ) w.solids = some r
          ∧ Physics.isMe w r = false
          ∧ (∀ j, j < k → ∀ r',
              Physics.collidesSolids w { s with ey := s.ey + (sg : ℚ) * (j : ℚ) }
                0 (sg : ℚ) w.solids = some r' → Physics.isMe w r' = true)
          ∧ Physics.sweepY w sg n s
              = ({ s with
                    ey := s.ey + (sg : ℚ) * (k : ℚ)
                    remY := 0 }, Physics.blockY w r, false)) := by
  intro n
  induction n with
  | zero =>
      intro s
      constructor
      · intro _
        constructor
        · have h0 : ({ s with ey := s.ey + (sg : ℚ) * ((0 : ℕ) : ℚ) } : PState) = s := by
            simp
          rw [h0]
          rfl
        · intro k hk
          exact absurd hk (by omega)
      · intro hfalse
        simp [Physics.sweepY] at hfalse
  | succ n ih =>
      intro s
      have hadv : ∀ j : ℕ,
          ({ ({ s with ey := s.ey + (sg : ℚ) } : PState) with
              ey := ({ s with ey := s.ey + (sg : ℚ) } : PState).ey + (sg : ℚ) * (j : ℚ) } : PState)
            = { s with ey := s.ey + (sg : ℚ) * ((j + 1 : ℕ) : ℚ) } := by
        intro j
        simp only [PState.mk.injEq, and_true, true_and]
        push_cast
        ring
      have hs0 : ({ s with ey := s.ey + (sg : ℚ) * ((0 : ℕ) : ℚ) } : PState) = s := by
        simp
      cases hp : Physics.collidesSolids w s 0 (sg : ℚ) w.solids with
      | none =>
          have hstep : Physics.sweepY w sg (n + 1) s
              = Physics.sweepY w sg n { s with ey := s.ey + (sg : ℚ) } := by
            simp only [Physics.sweepY, hp]
          rw [hstep]
          constructor
          · intro htrue
            obtain ⟨heq, hfree⟩ := (ih { s with ey := s.ey + (sg : ℚ) }).1 htrue
            constructor
            · rw [heq]
              simp only [Prod.mk.injEq, PState.mk.injEq, and_true, true_and]
              push_cast
              ring
            · intro k hk r hr
              cases k with
              | zero =>
                  rw [hs0, hp] at hr
                  exact absurd hr (by simp)
              | succ j =>
                  have := hfree j (by omega) r (by rw [hadv j]; exact hr)
                  exact this
          · intro hfalse
            obtain ⟨k, hk, r, hr, hme, hfree, heq⟩ := (ih { s with ey := s.ey + (sg : ℚ) }).2 hfalse
            refine ⟨k + 1, by omega, r, ?_, hme, ?_, ?_⟩
            · rw [← hadv k]
              exact hr
            · intro j hj r' hr'
              cases j with
              | zero =>
                  rw [hs0, hp] at hr'
                  exact absurd hr' (by simp)
              | succ i =>
                  exact hfree i (by omega) r' (by rw [hadv i]; exact hr')
            · rw [heq]
              simp only [Prod.mk.injEq, PState.mk.injEq, and_true, true_and]
              push_cast
              ring
      | some r =>
          cases hme : Physics.isMe w r with
          | true =>
              have hstep : Physics.sweepY w sg (n + 1) s
                  = Physics.sweepY w sg n { s with ey := s.ey + (sg : ℚ) } := by
                simp only [Physics.sweepY, hp, hme]
                simp
              rw [hstep]
              constructor
              · intro htrue
                obtain ⟨heq, hfree⟩ := (ih { s with ey := s.ey + (sg : ℚ) }).1 htrue
                constructor
                · rw [heq]
                  simp only [Prod.mk.injEq, PState.mk.injEq, and_true, true_and]
                  push_cast
                  ring
                · intro k hk r' hr'
                  cases k with
                  | zero =>
                      rw [hs0, hp] at hr'
                      cases hr'
                      exact hme
                  | succ j =>
                      exact hfree j (by omega) r' (by rw [hadv j]; exact hr')
              · intro hfalse
                obtain ⟨k, hk, r', hr', hme', hfree, heq⟩ :=
                  (ih { s with ey := s.ey + (sg : ℚ) }).2 hfalse
                refine ⟨k + 1, by omega, r', ?_, hme', ?_, ?_⟩
                · rw [← hadv k]
                  exact hr'
                · intro j hj r'' hr''
                  cases j with
                  | zero =>
                      rw [hs0, hp] at hr''
                      cases hr''
                      exact hme
                  | succ i =>
                      exact hfree i (by omega) r'' (by rw [hadv i]; exact hr'')
                · rw [heq]
                  simp only [Prod.mk.injEq, PState.mk.injEq, and_true, true_and]
                  push_cast
                  ring
          | false =>
              have hstep : Physics.sweepY w sg (n + 1) s
                  = ({ s with remY := 0 }, Physics.blockY w r, false) := by
                simp only [Physics.sweepY, hp, hme]
                simp
              rw [hstep]
              constructor
              · intro htrue
                exact absurd htrue (by simp)
              · intro _
                refine ⟨0, by omega, r, ?_, hme, ?_, ?_⟩
                · rw [hs0]
                  exact hp
                · intro j hj
                  exact absurd hj (by omega)
                · simp only [Prod.mk.injEq, PState.mk.injEq, and_true, true_and]
                  push_cast
                  ring

/-- C1: with an empty solids list `moveXAbsolute`/`moveYAbsolute` apply the
rounded displacement directly with no collision callback; with solids
configured, the unit sweep either completes the whole rounded distance
with no events (every probe at most self-hitting), or halts at the first
probe that finds a collider not owned by the mover's entity: the axis
remainder becomes `0`, the per-axis callback (if set) fires exactly once,
every `onCollide` entry fires with `(isHorizontal, hit)`, the call returns
`false`, and the entity keeps the position from just before the blocked
step. -/
theorem physics_solid_sweep_halts (w : PWorld) (s : PState) (amount : ℚ) :
    (w.solids = [] →
      Physics.moveXAbsolute w s amount
        = ({ s with ex := s.ex + (jsRound amount : ℚ) }, [], true)
      ∧ Physics.moveYAbsolute w s amount
        = ({ s with ey := s.ey + (jsRound amount : ℚ) }, [], true))
    ∧ (w.solids ≠ [] →
      (((Physics.moveXAbsolute w s amount).2.2 = true →
          Physics.moveXAbsolute w s amount
            = ({ s with
                  ex := s.ex + ((jsSign amount : ℤ) : ℚ) * (((jsRound amount).natAbs : ℕ) : ℚ) },
               [], true)
          ∧ ∀ k, k < (jsRound amount).natAbs → ∀ r,
              Physics.collidesSolids w
                  { s with ex := s.ex + ((jsSign amount : ℤ) : ℚ) * (k : ℚ) }
                  ((jsSign amount : ℤ) : ℚ) 0 w.solids = some r →
                Physics.isMe w r = true)
        ∧ ((Physics.moveXAbsolute w s amount).2.2 = false →
            ∃ k, k < (jsRound amount).natAbs ∧ ∃ r,
              Physics.collidesSolids w
                  { s with ex := s.ex + ((jsSign amount : ℤ) : ℚ) * (k : ℚ) }
                  ((jsSign amount : ℤ) : ℚ) 0 w.solids = some r
              ∧ Physics.isMe w r = false
              ∧ (∀ j, j < k → ∀ r',
                  Physics.collidesSolids w
                      { s with ex := s.ex + ((jsSign amount : ℤ) : ℚ) * (j : ℚ) }
                      ((jsSign amount : ℤ) : ℚ) 0 w.solids = some r' →
                    Physics.isMe w r' = true)
              ∧ Physics.moveXAbsolute w s amount
                  = ({ s with
                        ex := s.ex + ((jsSign amount : ℤ) : ℚ) * (k : ℚ)
                        remX := 0 }, Physics.blockX w r, false)
              ∧ (w.hasOnCollideX = true →
                  (Physics.blockX w r).count (PEvent.onCollideX r) = 1)))
      ∧ (((Physics.moveYAbsolute w s amount).2.2 = true →
          Physics.moveYAbsolute w s amount
            = ({ s with
                  ey := s.ey + ((jsSign amount : ℤ) : ℚ) * (((jsRound amount).natAbs : ℕ) : ℚ) },
               [], true)
          ∧ ∀ k, k < (jsRound amount).natAbs → ∀ r,
              Physics.collidesSolids w
                  { s with ey := s.ey + ((jsSign amount : ℤ) : ℚ) * (k : ℚ) }
                  0 ((jsSign amount : ℤ) : ℚ) w.solids = some r →
                Physics.isMe w r = true)
        ∧ ((Physics.moveYAbsolute w s amount).2.2 = false →
            ∃ k, k < (jsRound amount).natAbs ∧ ∃ r,
              Physics.collidesSolids w
                  { s with ey := s.ey + ((jsSign amount : ℤ) : ℚ) * (k : ℚ) }
                  0 ((jsSign amount : ℤ) : ℚ) w.solids = some r
              ∧ Physics.isMe w r = false
              ∧ (∀ j, j < k → ∀ r',
                  Physics.collidesSolids w
                      { s with ey := s.ey + ((jsSign amount : ℤ) : ℚ) * (j : ℚ) }
                      0 ((jsSign amount : ℤ) : ℚ) w.solids = some r' →
                    Physics.isMe w r' = true)
              ∧ Physics.moveYAbsolute w s amount
                  = ({ s with
                        ey := s.ey + ((jsSign amount : ℤ) : ℚ) * (k : ℚ)
                        remY := 0 }, Physics.blockY w r, false)
              ∧ (w.hasOnCollideY = true →
                  (Physics.blockY w r).count (PEvent.onCollideY r) = 1)))) := by
  constructor
  · intro hs
    exact ⟨moveXAbsolute_no_solids w s amount hs, moveYAbsolute_no_solids w s amount hs⟩
  · intro hne
    have hbX : Physics.moveXAbsolute w s amount
        = Physics.sweepX w (jsSign amount) (jsRound amount).natAbs s := by
      unfold Physics.moveXAbsolute
      rw [if_neg (by simpa [Nat.le_zero, List.length_eq_zero] using hne)]
    have hbY : Physics.moveYAbsolute w s amount
        = Physics.sweepY w (jsSign amount) (jsRound amount).natAbs s := by
      unfold Physics.moveYAbsolute
      rw [if_neg (by simpa [Nat.le_zero, List.length_eq_zero] using hne)]
    rw [hbX, hbY]
    obtain ⟨hXt, hXf⟩ := sweepX_char w (jsSign amount) (jsRound amount).natAbs s
    obtain ⟨hYt, hYf⟩ := sweepY_char w (jsSign amount) (jsRound amount).natAbs s
    refine ⟨⟨fun h => hXt h, fun h => ?_⟩, ⟨fun h => hYt h, fun h => ?_⟩⟩
    · obtain ⟨k, hk, r, hr, hme, hfree, heq⟩ := hXf h
      exact ⟨k, hk, r, hr, hme, hfree, heq, fun hset => blockX_count w r hset⟩
    · obtain ⟨k, hk, r, hr, hme, hfree, heq⟩ := hYf h
      exact ⟨k, hk, r, hr, hme, hfree, heq, fun hset => blockY_count w r hset⟩

/-- C1 witness: a mover at the origin sweeping 5 units right into a solid
hitbox at `x = 3/2` (owned by another entity) halts with the remainder
zeroed and returns `false`; the same call with no solids applies the
rounded displacement directly. -/
theorem physics_solid_sweep_halts_witness :
    (Physics.moveXAbsolute
        ⟨0, 0, 0, 0, 0, 1, 1, ["solid"],
          [("solid", [SceneRef.other ⟨"Hitbox", some 1, 0, 0, 0, 0, 3/2, 0, 1, 1⟩])],
          true, false, [7], 0, 0, 1/60⟩ ⟨0, 0, 0, 0⟩ 5).1.remX = 0
    ∧ (Physics.moveXAbsolute
        ⟨0, 0, 0, 0, 0, 1, 1, ["solid"],
          [("solid", [SceneRef.other ⟨"Hitbox", some 1, 0, 0, 0, 0, 3/2, 0, 1, 1⟩])],
          true, false, [7], 0, 0, 1/60⟩ ⟨0, 0, 0, 0⟩ 5).2.2 = false
    ∧ Physics.moveXAbsolute
        ⟨0, 0, 0, 0, 0, 1, 1, [], [], true, false, [7], 0, 0, 1/60⟩ ⟨0, 0, 0, 0⟩ 5
        = ({ (⟨0, 0, 0, 0⟩ : PState) with ex := (0 : ℚ) + (jsRound (5 : ℚ) : ℚ) },
           [], true) := by
  have hsg : jsSign (5 : ℚ) = 1 := by norm_num [jsSign]
  have hrd : jsRound (5 : ℚ) = 5 := by norm_num [jsRound]
  have hp : Physics.collidesSolids
      ⟨0, 0, 0, 0, 0, 1, 1, ["solid"],
        [("solid", [SceneRef.other ⟨"Hitbox", some 1, 0, 0, 0, 0, 3/2, 0, 1, 1⟩])],
        true, false, [7], 0, 0, 1/60⟩ ⟨0, 0, 0, 0⟩ (((1 : ℤ) : ℚ)) 0
      ["solid"]
      = some (SceneRef.other ⟨"Hitbox", some 1, 0, 0, 0, 0, 3/2, 0, 1, 1⟩) := by
    norm_num [Physics.collidesSolids, Physics.collideTag, Physics.refsInTag, dictGet,
      Physics.overlapRef, Physics.ownerX, Physics.ownerY, Physics.moverLeft,
      Physics.moverTop, List.find?]
  have hstep : Physics.sweepX
      ⟨0, 0, 0, 0, 0, 1, 1, ["solid"],
        [("solid", [SceneRef.other ⟨"Hitbox", some 1, 0, 0, 0, 0, 3/2, 0, 1, 1⟩])],
        true, false, [7], 0, 0, 1/60⟩ 1 5 ⟨0, 0, 0, 0⟩
      = (⟨0, 0, 0, 0⟩,
         Physics.blockX
           ⟨0, 0, 0, 0, 0, 1, 1, ["solid"],
             [("solid", [SceneRef.other ⟨"Hitbox", some 1, 0, 0, 0, 0, 3/2, 0, 1, 1⟩])],
             true, false, [7], 0, 0, 1/60⟩
           (SceneRef.other ⟨"Hitbox", some 1, 0, 0, 0, 0, 3/2, 0, 1, 1⟩), false) := by
    show Physics.sweepX _ 1 (4 + 1) _ = _
    simp only [Physics.sweepX]
    rw [hp]
    simp [Physics.isMe]
  have hb : Physics.moveXAbsolute
      ⟨0, 0, 0, 0, 0, 1, 1, ["solid"],
        [("solid", [SceneRef.other ⟨"Hitbox", some 1, 0, 0, 0, 0, 3/2, 0, 1, 1⟩])],
        true, false, [7], 0, 0, 1/60⟩ ⟨0, 0, 0, 0⟩ 5
      = Physics.sweepX
          ⟨0, 0, 0, 0, 0, 1, 1, ["solid"],
            [("solid", [SceneRef.other ⟨"Hitbox", some 1, 0, 0, 0, 0, 3/2, 0, 1, 1⟩])],
            true, false, [7], 0, 0, 1/60⟩ 1 5 ⟨0, 0, 0, 0⟩ := by
    unfold Physics.moveXAbsolute
    rw [if_neg (by simp), hsg, hrd]
    norm_num
  have hfalse : (Physics.moveXAbsolute
      ⟨0, 0, 0, 0, 0, 1, 1, ["solid"],
        [("solid", [SceneRef.other ⟨"Hitbox", some 1, 0, 0, 0, 0, 3/2, 0, 1, 1⟩])],
        true, false, [7], 0, 0, 1/60⟩ ⟨0, 0, 0, 0⟩ 5).2.2 = false := by
    rw [hb, hstep]
  refine ⟨?_, hfalse, ?_⟩
  · obtain ⟨k, hk, r, hr, hme, hfree, heq, hcnt⟩ :=
      ((physics_solid_sweep_halts
          ⟨0, 0, 0, 0, 0, 1, 1, ["solid"],
            [("solid", [SceneRef.other ⟨"Hitbox", some 1, 0, 0, 0, 0, 3/2, 0, 1, 1⟩])],
            true, false, [7], 0, 0, 1/60⟩ ⟨0, 0, 0, 0⟩ 5).2 (by simp)).1.2 hfalse
    rw [heq]
  · exact ((physics_solid_sweep_halts
        ⟨0, 0, 0, 0, 0, 1, 1, [], [], true, false, [7], 0, 0, 1/60⟩
        ⟨0, 0, 0, 0⟩ 5).1 rfl).1
